import Mathlib

/-!
# Shallow embedding of `pratikju/dynamostore`

A DynamoDB-backed session store for gorilla sessions. The repository has the
current source `dynamostore.go` (configuration bag typed
`map[string]interface{}`, TTL support) and an earlier generation of the same
file (configuration bag typed `map[string]string`, capacities parsed with
`strconv.Atoi`). Both are embedded below; names follow the Go source.

External collaborators (the gorilla `securecookie` codec stack and the
DynamoDB client) are modelled as explicit parameters: the codec as a bundle
of encode/decode functions, the database as a finite map of records together
with failure flags for each of the three item calls.
-/

namespace Dynamostore

/-- A loosely typed session value (Go `interface{}` in `session.Values`);
the values exercised by the repository's own test are strings and ints. -/
inductive SVal where
  | str (s : String)
  | int (n : Int)
deriving DecidableEq

/-- `session.Values`: a mapping from keys to loosely typed values. -/
abbrev Values := List (String × SVal)

/-- `sessions.Options` — cookie attributes held by the store (default
configuration) and by every session. -/
structure SessOptions where
  path : String
  maxAge : Int
  domain : String := ""
  secure : Bool := false
  httpOnly : Bool := false
deriving DecidableEq

/-- A gorilla `sessions.Session` as used by this store: identifier, values,
cookie options, freshness flag, and the cookie name it lives under. -/
structure GSession where
  ID : String
  Values : Values
  Options : SessOptions
  IsNew : Bool
  name : String
deriving DecidableEq

/-- The `Session` struct persisted in DynamoDB (`dynamostore.go`):
id, encoded data, modification timestamp and the `ttl` attribute.
The Go struct has no `omitempty` on `ttl`, so the marshalled record always
carries the field; it is `0` whenever the TTL branch of `save` is skipped. -/
structure Session where
  ID : String
  Data : String
  ModifiedAt : Int
  TTL : Int
deriving DecidableEq

/-- The DynamoDB table contents plus a failure model for the three item
calls the store issues (`GetItem`, `PutItem`, `DeleteItem`). -/
structure DB where
  items : List (String × Session)
  getFails : Bool := false
  putFails : Bool := false
  deleteFails : Bool := false
deriving DecidableEq

/-- `GetItem`: primary-key lookup. An absent key is not an error: DynamoDB
returns an empty item, which `dynamodbattribute.UnmarshalMap` turns into the
zero `Session`; we model the raw result as an `Option`. -/
def DB.getItem (db : DB) (id : String) : Except String (Option Session) :=
  if db.getFails then .error "get error"
  else .ok ((db.items.find? (fun p => p.1 = id)).map (fun p => p.2))

/-- `PutItem`: upsert semantics, create or overwrite, last writer wins. -/
def DB.putItem (db : DB) (rec : Session) : Except String DB :=
  if db.putFails then .error "put error"
  else .ok { db with items := (rec.ID, rec) :: db.items.filter (fun p => ¬ p.1 = rec.ID) }

/-- `DeleteItem`: removing an absent key succeeds. -/
def DB.deleteItem (db : DB) (id : String) : Except String DB :=
  if db.deleteFails then .error "delete error"
  else .ok { db with items := db.items.filter (fun p => ¬ p.1 = id) }

/-- The `securecookie` codec stack (`EncodeMulti` / `DecodeMulti` over
`s.Codecs`), an external collaborator. The store instantiates it at two
types: the session id (a string) for the cookie, and the `Values` map for
the stored `data` payload; each instantiation is one pair of functions. -/
structure Codec where
  encodeID : String → String → Except String String
  decodeID : String → String → Except String String
  encodeValues : String → Values → Except String String
  decodeValues : String → String → Except String Values

/-- One entry of the store's `Codecs []securecookie.Codec` slice, as seen by
the `MaxAge` method: either a `*securecookie.SecureCookie` (which carries a
mutable age ceiling) or some other codec implementation without one. -/
inductive CodecEntry where
  | secureCookie (maxAge : Int) (tag : String)
  | other (tag : String)
deriving DecidableEq

/-- The `DynamoStore` struct: table name, TTL flag, codec behaviour and
codec list, and the default session options. -/
structure DynamoStore where
  table : String
  ttlEnabled : Bool
  codec : Codec
  Codecs : List CodecEntry
  Options : SessOptions

/-- An HTTP request, reduced to the cookies it carries. -/
structure Request where
  cookies : List (String × String)
deriving DecidableEq

/-- `r.Cookie(name)`: the first cookie with that name, if any. -/
def Request.cookie (r : Request) (name : String) : Option String :=
  (r.cookies.find? (fun p => p.1 = name)).map (fun p => p.2)

/-- A cookie placed on the response by `http.SetCookie` via
`sessions.NewCookie(name, value, options)`. -/
structure Cookie where
  name : String
  value : String
  options : SessOptions
deriving DecidableEq

/-- The response writer, reduced to the cookies set on it. -/
structure Response where
  cookies : List Cookie
deriving DecidableEq

/-- `http.SetCookie` appends a `Set-Cookie` header. -/
def Response.setCookie (w : Response) (c : Cookie) : Response :=
  { cookies := w.cookies ++ [c] }

/-- `DynamoStore.load`: strongly consistent `GetItem` on the session id,
unmarshal (an absent item yields the zero record), reject a record whose
`ttl` is positive and strictly below the current time, then decode the
stored payload into the session values. -/
def DynamoStore.load (s : DynamoStore) (db : DB) (now : Int) (sess : GSession) :
    Except String Values :=
  match db.getItem sess.ID with
  | .error e => .error e
  | .ok item =>
    let sessionObj : Session := item.getD ⟨"", "", 0, 0⟩
    if sessionObj.TTL > 0 ∧ sessionObj.TTL < now then .error "Session not found"
    else s.codec.decodeValues sess.name sessionObj.Data

/-- `DynamoStore.save` (lowercase): encode the values, build the record with
`modifiedAt = now` and, when the store's TTL flag is on and the session's
max age is positive, `ttl = now + maxAge` (otherwise the zero value `0`),
then `PutItem` it. -/
def DynamoStore.save (s : DynamoStore) (db : DB) (now : Int) (sess : GSession) :
    Except String DB :=
  match s.codec.encodeValues sess.name sess.Values with
  | .error e => .error e
  | .ok encoded =>
    let ttl : Int :=
      if s.ttlEnabled ∧ sess.Options.maxAge > 0 then now + sess.Options.maxAge else 0
    db.putItem ⟨sess.ID, encoded, now, ttl⟩

/-- `DynamoStore.delete`: `DeleteItem` on the session id. -/
def DynamoStore.delete (s : DynamoStore) (db : DB) (sess : GSession) :
    Except String DB :=
  db.deleteItem sess.ID

/-! ## Base32 id generation

`Save` generates a fresh id as
`strings.TrimRight(base32.StdEncoding.EncodeToString(securecookie.GenerateRandomKey(32)), "=")`.
The random 32 bytes are an input of the model (`GenerateRandomKey` is an
external entropy source); standard base32 (RFC 4648) and the padding trim
are embedded. -/

/-- The RFC 4648 standard base32 alphabet used by `base32.StdEncoding`. -/
def base32Alphabet : List Char :=
  ['A','B','C','D','E','F','G','H','I','J','K','L','M','N','O','P','Q','R',
   'S','T','U','V','W','X','Y','Z','2','3','4','5','6','7']

/-- The eight bits of a byte, most significant first. -/
def byteBits (b : Nat) : List Bool :=
  [b / 128 % 2 == 1, b / 64 % 2 == 1, b / 32 % 2 == 1, b / 16 % 2 == 1,
   b / 8 % 2 == 1, b / 4 % 2 == 1, b / 2 % 2 == 1, b % 2 == 1]

/-- Value of a bit string, most significant first. -/
def bitsToNat : List Bool → Nat
  | [] => 0
  | b :: bs => (if b then 1 else 0) * 2 ^ bs.length + bitsToNat bs

/-- Split a bit string into 5-bit groups, zero-padding the last group on the
right, as base32 does. -/
def chunk5 : List Bool → List (List Bool)
  | [] => []
  | [a] => [[a, false, false, false, false]]
  | [a, b] => [[a, b, false, false, false]]
  | [a, b, c] => [[a, b, c, false, false]]
  | [a, b, c, d] => [[a, b, c, d, false]]
  | a :: b :: c :: d :: e :: rest => [a, b, c, d, e] :: chunk5 rest

/-- Encode one input group of at most five bytes into eight characters,
the tail padded with `=`. -/
def encodeGroup (g : List Nat) : List Char :=
  let dataChars := (chunk5 (g.map byteBits).flatten).map
    (fun c => base32Alphabet.getD (bitsToNat c) 'A')
  dataChars ++ List.replicate (8 - dataChars.length) '='

/-- `base32.StdEncoding.EncodeToString`, grouping the input five bytes at a
time. -/
def base32Chunks : List Nat → List Char
  | [] => []
  | [a] => encodeGroup [a]
  | [a, b] => encodeGroup [a, b]
  | [a, b, c] => encodeGroup [a, b, c]
  | [a, b, c, d] => encodeGroup [a, b, c, d]
  | a :: b :: c :: d :: e :: rest => encodeGroup [a, b, c, d, e] ++ base32Chunks rest

/-- `base32.StdEncoding.EncodeToString` on a byte slice. -/
def base32EncodeToString (bytes : List Nat) : String :=
  String.mk (base32Chunks bytes)

/-- `strings.TrimRight(s, "=")`. -/
def trimRightEq (s : String) : String :=
  String.mk ((s.toList.reverse.dropWhile (fun c => c = '=')).reverse)

/-- The id `Save` assigns to a session that has none, as a function of the
32 random bytes supplied by `securecookie.GenerateRandomKey(32)`. -/
def generateID (key : List Nat) : String :=
  trimRightEq (base32EncodeToString key)

/-! ## Save, New, Get, MaxAge -/

/-- What a call to `DynamoStore.Save` leaves behind: the returned error (if
any), the database, the response writer, and the session object (which Go
mutates in place when it assigns a fresh id). -/
structure SaveResult where
  err : Option String
  db : DB
  w : Response
  sess : GSession
deriving DecidableEq

/-- `DynamoStore.Save`: on `MaxAge ≤ 0`, delete the record and set a
clearing cookie (empty value, the session's options); otherwise assign a
fresh id when the session has none, persist the record, encode the id and
set the session cookie. Errors abort the remaining steps and are returned;
side effects already performed stand. `key` is the 32-byte random key drawn
by `securecookie.GenerateRandomKey` on the id-assignment path. -/
def DynamoStore.Save (s : DynamoStore) (db : DB) (now : Int) (key : List Nat)
    (w : Response) (sess : GSession) : SaveResult :=
  if sess.Options.maxAge ≤ 0 then
    match s.delete db sess with
    | .error e => ⟨some e, db, w, sess⟩
    | .ok db' => ⟨none, db', w.setCookie ⟨sess.name, "", sess.Options⟩, sess⟩
  else
    let sess := if sess.ID = "" then { sess with ID := generateID key } else sess
    match s.save db now sess with
    | .error e => ⟨some e, db, w, sess⟩
    | .ok db' =>
      match s.codec.encodeID sess.name sess.ID with
      | .error e => ⟨some e, db', w, sess⟩
      | .ok encoded =>
        ⟨none, db', w.setCookie ⟨sess.name, encoded, sess.Options⟩, sess⟩

/-- `DynamoStore.New`: a fresh session with a value copy of the store's
default options and `IsNew = true`; when the request carries a cookie under
`name`, decode it to a session id (a decode failure is returned to the
caller) and attempt to load; a load failure is swallowed (`err = nil`) and
the session stays new, a successful load populates the values and clears
`IsNew`. -/
def DynamoStore.New (s : DynamoStore) (db : DB) (now : Int) (r : Request)
    (name : String) : GSession × Option String :=
  let base : GSession := ⟨"", [], s.Options, true, name⟩
  match r.cookie name with
  | none => (base, none)
  | some cval =>
    match s.codec.decodeID name cval with
    | .error e => (base, some e)
    | .ok id =>
      let sess := { base with ID := id }
      match s.load db now sess with
      | .error _ => (sess, none)
      | .ok values => ({ sess with Values := values, IsNew := false }, none)

/-- `DynamoStore.Get` delegates to the session registry, which (on the first
call for a name in a request) calls `New`; its persistence semantics are
those of `New`. -/
def DynamoStore.Get (s : DynamoStore) (db : DB) (now : Int) (r : Request)
    (name : String) : GSession × Option String :=
  s.New db now r name

/-- The update `MaxAge` applies to one codec entry: a
`*securecookie.SecureCookie` gets the new age ceiling, any other codec is
left as it is. -/
def CodecEntry.setMaxAge (c : CodecEntry) (age : Int) : CodecEntry :=
  match c with
  | .secureCookie _ tag => .secureCookie age tag
  | .other tag => .other tag

/-- `DynamoStore.MaxAge`: set the store's default `Options.MaxAge` and the
age ceiling of every `SecureCookie` codec in the list. -/
def DynamoStore.MaxAgeSet (s : DynamoStore) (age : Int) : DynamoStore :=
  { s with
    Options := { s.Options with maxAge := age },
    Codecs := s.Codecs.map (fun c => c.setMaxAge age) }

/-! ## Store construction: option parsing

Current generation (`dynamostore.go`): the configuration bag is
`map[string]interface{}` and every option is read by a type assertion whose
failure (missing key or wrong dynamic type) falls back to the default, as
does a non-positive numeric value. Parsing never fails.

Earlier generation (`src/unnamed/part_001`): the bag is
`map[string]string`; capacities go through `strconv.Atoi` and a parse
failure is a construction error. -/

/-- A dynamic value in the `map[string]interface{}` configuration bag. -/
inductive ConfigVal where
  | str (s : String)
  | int64 (n : Int)
  | bool (b : Bool)
  | otherType
deriving DecidableEq

/-- The configuration bag of the current `NewDynamoStore`. -/
abbrev Config := List (String × ConfigVal)

/-- Lookup in the bag; a missing key yields Go's `nil`, on which every type
assertion fails. -/
def Config.get (c : Config) (k : String) : Option ConfigVal :=
  (c.find? (fun p => p.1 = k)).map (fun p => p.2)

/-- The options `NewDynamoStore` extracts from its configuration bag. -/
structure ParsedOptions where
  table : String
  readCapacity : Int
  writeCapacity : Int
  maxAge : Int
  region : String
  ttlEnabled : Bool
  endpoint : String
deriving DecidableEq

/-- `DefaultMaxAge = 86400 * 30`. -/
def DefaultMaxAge : Int := 86400 * 30

/-- The option-parsing phase of the current `NewDynamoStore`
(`dynamostore.go` lines 88–114): each type assertion that fails, and each
non-positive numeric, falls back to the default; this phase cannot fail. -/
def parseConfig (config : Config) : ParsedOptions :=
  let table := match config.get "table" with
    | some (.str t) => if t = "" then "session-backend" else t
    | _ => "session-backend"
  let readCapacity : Int := match config.get "read_capacity" with
    | some (.int64 n) => if n ≤ 0 then 5 else n
    | _ => 5
  let writeCapacity : Int := match config.get "write_capacity" with
    | some (.int64 n) => if n ≤ 0 then 5 else n
    | _ => 5
  let maxAge : Int := match config.get "max_age" with
    | some (.int64 n) => if n ≤ 0 then DefaultMaxAge else n
    | _ => DefaultMaxAge
  let region := match config.get "region" with
    | some (.str r) => if r = "" then "us-east-1" else r
    | _ => "us-east-1"
  let ttlEnabled := match config.get "ttl_enabled" with
    | some (.bool b) => b
    | _ => true
  let endpoint := match config.get "endpoint" with
    | some (.str e) => e
    | _ => ""
  ⟨table, readCapacity, writeCapacity, maxAge, region, ttlEnabled, endpoint⟩

/-- The store the current `NewDynamoStore` returns when connection and
bootstrap succeed: defaults `Path: "/"` and the parsed max age. -/
def NewDynamoStore (config : Config) (codec : Codec) (codecs : List CodecEntry) :
    DynamoStore :=
  let p := parseConfig config
  ⟨p.table, p.ttlEnabled, codec, codecs, { path := "/", maxAge := p.maxAge }⟩

/-- The configuration bag of the earlier `NewDynamoStore`
(`src/unnamed/part_001`): `map[string]string`, missing key reads as `""`. -/
abbrev ConfigStr := List (String × String)

/-- Lookup in the string bag; Go map access yields `""` for a missing key. -/
def ConfigStr.get (c : ConfigStr) (k : String) : String :=
  ((c.find? (fun p => p.1 = k)).map (fun p => p.2)).getD ""

/-- The options parsed by the earlier `NewDynamoStore`. -/
structure ParsedOptionsStr where
  table : String
  readCapacity : Int
  writeCapacity : Int
  region : String
  endpoint : String
deriving DecidableEq

/-- `strconv.Atoi`, restricted to what the source feeds it: an optional
sign followed by decimal digits; anything else is an error. -/
def atoi (s : String) : Except String Int :=
  let core (ds : List Char) (sign : Int) : Except String Int :=
    if ds = [] ∨ ¬ ds.all (fun c => c.isDigit) then .error "invalid syntax"
    else .ok (sign * (ds.foldl (fun acc c => 10 * acc + (c.toNat - 48)) 0 : Nat))
  match s.toList with
  | '-' :: rest => core rest (-1)
  | '+' :: rest => core rest 1
  | ds => core ds 1

/-- The option-parsing phase of the earlier `NewDynamoStore`
(`src/unnamed/part_001` lines 72–94): capacities default to `"0"` when
missing, then go through `strconv.Atoi`; a parse failure aborts
construction with an error, a parsed `0` becomes the default `5`. All
other options are strings and fall back silently when empty or missing. -/
def parseConfigStr (config : ConfigStr) : Except String ParsedOptionsStr :=
  let table := if config.get "table" = "" then "session-backend" else config.get "table"
  let readCapacityString :=
    if config.get "read_capacity" = "" then "0" else config.get "read_capacity"
  match atoi readCapacityString with
  | .error _ => .error ("invalid read capacity: " ++ readCapacityString)
  | .ok readCapacity0 =>
    let readCapacity := if readCapacity0 = 0 then 5 else readCapacity0
    let writeCapacityString :=
      if config.get "write_capacity" = "" then "0" else config.get "write_capacity"
    match atoi writeCapacityString with
    | .error _ => .error ("invalid write capacity: " ++ writeCapacityString)
    | .ok writeCapacity0 =>
      let writeCapacity := if writeCapacity0 = 0 then 5 else writeCapacity0
      let region := if config.get "region" = "" then "us-east-1" else config.get "region"
      let endpoint := config.get "endpoint"
      .ok ⟨table, readCapacity, writeCapacity, region, endpoint⟩

/-! ## Concrete fixtures

Instances used to evaluate the development on concrete inputs, mirroring the
repository's own test (`values = {"name": "alice", "id": 43}` under cookie
name `"mysession"`). The codec is one concrete external collaborator
satisfying the `securecookie` contract at the points these inputs use. -/

/-- The values the repository's test writes into the session. -/
def aliceValues : Values := [("name", .str "alice"), ("id", .int 43)]

/-- A concrete codec: ids are marked with a leading `I`, the alice values
encode to the payload `"DATA"`; anything else fails verification. -/
def testCodec : Codec where
  encodeID := fun _ v => .ok ("I" ++ v)
  decodeID := fun _ s =>
    match s.toList with
    | 'I' :: rest => .ok (String.mk rest)
    | _ => .error "securecookie: the value is not valid"
  encodeValues := fun _ _ => .ok "DATA"
  decodeValues := fun _ s =>
    if s = "DATA" then .ok aliceValues
    else .error "securecookie: the value is not valid"

/-- Default options of a freshly constructed store. -/
def testOptions : SessOptions := { path := "/", maxAge := 86400 * 30 }

/-- A store with TTL enabled, one `SecureCookie` codec and one codec of
another kind. -/
def testStore : DynamoStore :=
  ⟨"session-backend", true, testCodec,
   [.secureCookie (86400 * 30) "sc0", .other "plain"], testOptions⟩

/-- The same store with the TTL flag disabled. -/
def testStoreNoTTL : DynamoStore :=
  ⟨"session-backend", false, testCodec,
   [.secureCookie (86400 * 30) "sc0", .other "plain"], testOptions⟩

/-- An empty table with no injected faults. -/
def emptyDB : DB := ⟨[], false, false, false⟩

/-- An empty table whose `PutItem` fails. -/
def failPutDB : DB := ⟨[], false, true, false⟩

/-- An empty table whose `DeleteItem` fails. -/
def failDelDB : DB := ⟨[], false, false, true⟩

/-- A stored record carrying `ttl = 100`. -/
def ttlRec : Session := ⟨"sid", "DATA", 50, 100⟩

/-- A table holding `ttlRec`. -/
def ttlDB : DB := ⟨[("sid", ttlRec)], false, false, false⟩

/-- A session that already has an id, holding the alice values. -/
def aliceSession : GSession := ⟨"sid", aliceValues, testOptions, true, "mysession"⟩

/-- A session marked for deletion (`MaxAge = -1`). -/
def delSession : GSession :=
  ⟨"sid", aliceValues, { path := "/", maxAge := -1 }, false, "mysession"⟩

/-- A response with no cookies set yet. -/
def emptyResponse : Response := ⟨[]⟩

/-- A request carrying a cookie that fails signature verification under
`testCodec` (it does not start with `I`). -/
def badReq : Request := ⟨[("mysession", "Xtampered")]⟩

/-- A codec whose value encoder fails (e.g. an unserializable value). -/
def failCodec : Codec where
  encodeID := fun _ v => .ok ("I" ++ v)
  decodeID := fun _ s =>
    match s.toList with
    | 'I' :: rest => .ok (String.mk rest)
    | _ => .error "securecookie: the value is not valid"
  encodeValues := fun _ _ => .error "securecookie: encoding failed"
  decodeValues := fun _ _ => .error "securecookie: the value is not valid"

/-- `testStore` with the failing value encoder. -/
def testStoreEncFail : DynamoStore :=
  ⟨"session-backend", true, failCodec,
   [.secureCookie (86400 * 30) "sc0", .other "plain"], testOptions⟩

/-- A session that has no id yet, holding the alice values. -/
def freshSession : GSession := ⟨"", aliceValues, testOptions, true, "mysession"⟩

/-- The byte string `"foobar"`, a sample random key. -/
def fooKey : List Nat := [102, 111, 111, 98, 97, 114]

/-- A configuration bag with non-positive numeric options. -/
def nonPosConfig : Config :=
  [("read_capacity", .int64 (-1)), ("write_capacity", .int64 0),
   ("max_age", .int64 (-5))]

/-- A configuration bag whose capacity value has the wrong dynamic type. -/
def mistypedConfig : Config := [("read_capacity", .str "abc")]

/-- A string configuration bag with an unparseable capacity. -/
def csAbc : ConfigStr := [("read_capacity", "abc")]

/-- A string configuration bag with a well-formed capacity. -/
def cs7 : ConfigStr := [("read_capacity", "7")]

/-- A stored record whose `ttl` attribute is the zero value `0`. -/
def zeroRec : Session := ⟨"sid", "DATA", 50, 0⟩

/-- A table holding `zeroRec`. -/
def zeroDB : DB := ⟨[("sid", zeroRec)], false, false, false⟩

/-! ## Theorems -/

/-- C6: for every session with `Options.MaxAge ≤ 0`, `Save` deletes the
record for that session id — succeeding also when no record exists, since
`DeleteItem` does not fail on absence — appends a clearing cookie with empty
value and the session's attributes to the response, leaves the session
untouched, and returns success. -/
theorem Save_deletion_path (s : DynamoStore) (db : DB) (now : Int) (key : List Nat)
    (w : Response) (sess : GSession)
    (hAge : sess.Options.maxAge ≤ 0) (hDel : db.deleteFails = false) :
    s.Save db now key w sess =
      ⟨none, { db with items := db.items.filter (fun p => ¬ p.1 = sess.ID) },
       w.setCookie ⟨sess.name, "", sess.Options⟩, sess⟩ := by
  simp [DynamoStore.Save, DynamoStore.delete, DB.deleteItem, hAge, hDel]

/-- Witness for C6: deleting the alice session against an empty table (no
record exists) succeeds and clears the cookie. -/
theorem Save_deletion_path_witness :
    delSession.Options.maxAge ≤ 0 ∧ emptyDB.deleteFails = false ∧
    testStore.Save emptyDB 1000 [] emptyResponse delSession =
      ⟨none, emptyDB, ⟨[⟨"mysession", "", delSession.Options⟩]⟩, delSession⟩ :=
  ⟨by decide, rfl,
   Save_deletion_path testStore emptyDB 1000 [] emptyResponse delSession
     (by decide) rfl⟩

/-- C7: `Save` assigns the id `generateID key` — the base32 encoding of the
32 random bytes with the `=` padding trimmed — exactly when the session's id
is empty (and the save path is taken); a session whose id is already
non-empty keeps it unchanged; and a generated id never ends in a padding
character. -/
theorem Save_id_assigned_once (s : DynamoStore) (db : DB) (now : Int)
    (key : List Nat) (w : Response) (sess : GSession) :
    ((s.Save db now key w sess).sess.ID =
      if sess.ID = "" ∧ 0 < sess.Options.maxAge then generateID key else sess.ID) ∧
    (∀ c, ((generateID key).toList).getLast? = some c → c ≠ '=') := by
  constructor
  · unfold DynamoStore.Save
    by_cases hA : sess.Options.maxAge ≤ 0
    · have : ¬ (sess.ID = "" ∧ 0 < sess.Options.maxAge) := by
        rintro ⟨-, h⟩; omega
      simp only [hA, if_pos, if_true, this, if_false, if_neg]
      cases s.delete db sess <;> simp
    · simp only [hA, if_false, if_neg, not_false_iff]
      by_cases hID : sess.ID = ""
      · simp only [hID, if_pos, and_true, true_and]
        have h2 : 0 < sess.Options.maxAge := by omega
        simp only [h2, if_pos, if_true]
        cases s.save db now { sess with ID := generateID key } with
        | error e => simp
        | ok db' =>
          simp only
          cases s.codec.encodeID sess.name (generateID key) <;> simp
      · simp only [hID, if_neg, false_and, if_false]
        cases s.save db now sess with
        | error e => simp
        | ok db' =>
          simp only
          cases s.codec.encodeID sess.name sess.ID <;> simp
  · intro c hc hEq
    subst hEq
    unfold generateID trimRightEq at hc
    rw [show (String.mk ((base32EncodeToString key).toList.reverse.dropWhile
      (fun c => c = '=')).reverse).toList =
      ((base32EncodeToString key).toList.reverse.dropWhile (fun c => c = '=')).reverse
      from rfl, List.getLast?_reverse] at hc
    have := List.head?_dropWhile_not (fun c => decide (c = '='))
      ((base32EncodeToString key).toList.reverse)
    rw [hc] at this
    simp at this

/-- Witness for C7: saving a session with no id assigns the trimmed base32
id of the key, and that id ends in `I`, not `=`. -/
theorem Save_id_assigned_once_witness :
    (testStore.Save emptyDB 5 fooKey emptyResponse freshSession).sess.ID =
      (if freshSession.ID = "" ∧ 0 < freshSession.Options.maxAge
        then generateID fooKey else freshSession.ID) ∧
    ((generateID fooKey).toList.getLast? = some 'I' ∧ 'I' ≠ '=') :=
  ⟨(Save_id_assigned_once testStore emptyDB 5 fooKey emptyResponse freshSession).1,
   by decide,
   (Save_id_assigned_once testStore emptyDB 5 fooKey emptyResponse freshSession).2
     'I' (by decide)⟩

/-- C5: `Save` is atomic with respect to the response on failure: when the
storage write fails, or the value-encoding step before it fails, the error
is propagated and no cookie is set (and the table is unchanged); on the
deletion path a storage delete failure is propagated and the cookie is not
cleared. -/
theorem Save_failure_atomicity (s : DynamoStore) (db : DB) (now : Int)
    (key : List Nat) (w : Response) (sess : GSession) :
    ((0 < sess.Options.maxAge → db.putFails = true →
      (s.Save db now key w sess).err ≠ none ∧
      (s.Save db now key w sess).w = w ∧ (s.Save db now key w sess).db = db)) ∧
    ((0 < sess.Options.maxAge →
      ∀ e, s.codec.encodeValues sess.name sess.Values = .error e →
      (s.Save db now key w sess).err = some e ∧
      (s.Save db now key w sess).w = w ∧ (s.Save db now key w sess).db = db)) ∧
    ((sess.Options.maxAge ≤ 0 → db.deleteFails = true →
      (s.Save db now key w sess).err ≠ none ∧
      (s.Save db now key w sess).w = w ∧ (s.Save db now key w sess).db = db)) := by
  refine ⟨?_, ?_, ?_⟩
  · intro hpos hput
    have hA : ¬ sess.Options.maxAge ≤ 0 := by omega
    unfold DynamoStore.Save
    simp only [hA, if_false, if_neg, not_false_iff]
    set sess' := if sess.ID = "" then { sess with ID := generateID key } else sess with hs'
    have hname : sess'.Values = sess.Values ∧ sess'.name = sess.name := by
      rw [hs']; by_cases h : sess.ID = "" <;> simp [h]
    unfold DynamoStore.save
    cases hE : s.codec.encodeValues sess'.name sess'.Values with
    | error e => simp
    | ok d => simp [DB.putItem, hput]
  · intro hpos e hE
    have hA : ¬ sess.Options.maxAge ≤ 0 := by omega
    unfold DynamoStore.Save
    simp only [hA, if_false, if_neg, not_false_iff]
    set sess' := if sess.ID = "" then { sess with ID := generateID key } else sess with hs'
    have hname : sess'.Values = sess.Values ∧ sess'.name = sess.name := by
      rw [hs']; by_cases h : sess.ID = "" <;> simp [h]
    unfold DynamoStore.save
    rw [hname.1, hname.2, hE]
    simp
  · intro hA hdel
    unfold DynamoStore.Save
    simp only [hA, if_pos, if_true]
    unfold DynamoStore.delete DB.deleteItem
    rw [hdel]
    simp

/-- Witness for C5: a failing `PutItem`, a failing value encoder, and a
failing `DeleteItem` each propagate an error while leaving the response and
the table unchanged. -/
theorem Save_failure_atomicity_witness :
    (0 < aliceSession.Options.maxAge ∧ failPutDB.putFails = true ∧
      ((testStore.Save failPutDB 5 [] emptyResponse aliceSession).err ≠ none ∧
       (testStore.Save failPutDB 5 [] emptyResponse aliceSession).w = emptyResponse ∧
       (testStore.Save failPutDB 5 [] emptyResponse aliceSession).db = failPutDB)) ∧
    (0 < aliceSession.Options.maxAge ∧
      ((testStoreEncFail.Save emptyDB 5 [] emptyResponse aliceSession).err =
        some "securecookie: encoding failed" ∧
       (testStoreEncFail.Save emptyDB 5 [] emptyResponse aliceSession).w = emptyResponse ∧
       (testStoreEncFail.Save emptyDB 5 [] emptyResponse aliceSession).db = emptyDB)) ∧
    (delSession.Options.maxAge ≤ 0 ∧ failDelDB.deleteFails = true ∧
      ((testStore.Save failDelDB 5 [] emptyResponse delSession).err ≠ none ∧
       (testStore.Save failDelDB 5 [] emptyResponse delSession).w = emptyResponse ∧
       (testStore.Save failDelDB 5 [] emptyResponse delSession).db = failDelDB)) :=
  ⟨⟨by decide, rfl,
    (Save_failure_atomicity testStore failPutDB 5 [] emptyResponse aliceSession).1
      (by decide) rfl⟩,
   ⟨by decide,
    (Save_failure_atomicity testStoreEncFail emptyDB 5 [] emptyResponse aliceSession).2.1
      (by decide) "securecookie: encoding failed" rfl⟩,
   ⟨by decide, rfl,
    (Save_failure_atomicity testStore failDelDB 5 [] emptyResponse delSession).2.2
      (by decide) rfl⟩⟩

/-- C3 counterexample: on a request whose cookie fails verification, `New`
returns the decode error (non-nil) to the caller — the session is fresh and
empty, but the error is not swallowed, contrary to the claim. -/
theorem New_decode_error_counterexample :
    badReq.cookie "mysession" = some "Xtampered" ∧
    (testStore.New emptyDB 0 badReq "mysession").2 ≠ none ∧
    (testStore.New emptyDB 0 badReq "mysession").1.IsNew = true ∧
    (testStore.New emptyDB 0 badReq "mysession").1.Values = [] := by
  decide

/-- C3 amended: for every request whose cookie under the given name fails
signature verification or is malformed, `New` (and `Get`) returns a fresh
session with `IsNew = true` and empty values, and returns the decode error
to the caller (the returned error is non-nil). -/
theorem New_decode_failure_fresh (s : DynamoStore) (db : DB) (now : Int)
    (r : Request) (name cv e : String)
    (hc : r.cookie name = some cv)
    (hd : s.codec.decodeID name cv = .error e) :
    s.New db now r name = (⟨"", [], s.Options, true, name⟩, some e) ∧
    s.Get db now r name = (⟨"", [], s.Options, true, name⟩, some e) := by
  unfold DynamoStore.Get DynamoStore.New
  simp [hc, hd]

/-- Witness for C3's amended theorem: the tampered cookie yields the fresh
session together with the verification error. -/
theorem New_decode_failure_fresh_witness :
    badReq.cookie "mysession" = some "Xtampered" ∧
    testCodec.decodeID "mysession" "Xtampered" =
      .error "securecookie: the value is not valid" ∧
    testStore.New emptyDB 0 badReq "mysession" =
      (⟨"", [], testStore.Options, true, "mysession"⟩,
       some "securecookie: the value is not valid") :=
  ⟨rfl, rfl,
   (New_decode_failure_fresh testStore emptyDB 0 badReq "mysession" "Xtampered"
     "securecookie: the value is not valid" rfl rfl).1⟩

/-- C4 counterexample: a record whose TTL timestamp is present and `at` the
current time (TTL = now = 100) is not treated as absent — `load` returns
the decoded values, not `NotFound` — refuting "at or before". -/
theorem load_ttl_boundary_counterexample :
    ttlDB.getItem "sid" = .ok (some ttlRec) ∧ 0 < ttlRec.TTL ∧ ttlRec.TTL = 100 ∧
    testStore.load ttlDB 100 ⟨"sid", [], testOptions, true, "mysession"⟩ =
      .ok aliceValues :=
  ⟨rfl, by decide, rfl, rfl⟩

/-- C4 amended: for every stored record whose TTL timestamp is present
(positive) and strictly before the current time, `load` fails with
`Session not found`, even though the table still physically holds the
record; a TTL exactly at the current time is not yet expired. -/
theorem load_expired_not_found (s : DynamoStore) (db : DB) (now : Int)
    (sess : GSession) (rec : Session)
    (hGet : db.getItem sess.ID = .ok (some rec))
    (hPos : 0 < rec.TTL) (hPast : rec.TTL < now) :
    s.load db now sess = .error "Session not found" := by
  unfold DynamoStore.load
  rw [hGet]
  simp [hPos, hPast]

/-- Witness for C4's amended theorem: at time 101 the record with TTL 100 is
reported absent although the table holds it. -/
theorem load_expired_not_found_witness :
    ttlDB.getItem "sid" = .ok (some ttlRec) ∧ 0 < ttlRec.TTL ∧ ttlRec.TTL < 101 ∧
    testStore.load ttlDB 101 ⟨"sid", [], testOptions, true, "mysession"⟩ =
      .error "Session not found" :=
  ⟨rfl, by decide, by decide,
   load_expired_not_found testStore ttlDB 101
     ⟨"sid", [], testOptions, true, "mysession"⟩ ttlRec rfl (by decide) (by decide)⟩

/-- Sessions returned by `New` carry a value copy of the store's default
options, on every path. -/
theorem New_Options_eq (s : DynamoStore) (db : DB) (now : Int) (r : Request)
    (name : String) : ((s.New db now r name).1).Options = s.Options := by
  unfold DynamoStore.New
  split
  · rfl
  · split
    · rfl
    · dsimp only
      split <;> rfl

/-- C8: `MaxAge` updates the store's default `Options.MaxAge` (used by all
sessions `New` creates afterwards) and sets the age ceiling on every
`SecureCookie` codec while leaving every other codec unchanged; a session
created before the update keeps the options the store had at its creation,
and no response cookie is touched. -/
theorem MaxAge_propagation (s : DynamoStore) (age : Int) (db : DB) (now : Int)
    (r : Request) (name : String) :
    ((s.MaxAgeSet age).Options.maxAge = age) ∧
    ((s.MaxAgeSet age).Codecs = s.Codecs.map (fun c => c.setMaxAge age)) ∧
    (∀ ma tag, CodecEntry.setMaxAge (.secureCookie ma tag) age = .secureCookie age tag) ∧
    (∀ tag, CodecEntry.setMaxAge (.other tag) age = .other tag) ∧
    (((s.MaxAgeSet age).New db now r name).1.Options.maxAge = age) ∧
    ((s.New db now r name).1.Options = s.Options) :=
  ⟨rfl, rfl, fun _ _ => rfl, fun _ => rfl,
   by rw [New_Options_eq]; rfl,
   New_Options_eq s db now r name⟩

/-- C9: at construction, a `read_capacity`, `write_capacity` or `max_age`
value of the correct numeric type but non-positive is silently replaced by
its default (5, 5 and 30 days); the parsed max age is always positive, so
the constructed store's default session lifetime is never a delete-on-save
default. -/
theorem parseConfig_nonpositive_defaults (config : Config) (codec : Codec)
    (codecs : List CodecEntry) :
    (∀ n : Int, config.get "read_capacity" = some (.int64 n) → n ≤ 0 →
      (parseConfig config).readCapacity = 5) ∧
    (∀ n : Int, config.get "write_capacity" = some (.int64 n) → n ≤ 0 →
      (parseConfig config).writeCapacity = 5) ∧
    (∀ n : Int, config.get "max_age" = some (.int64 n) → n ≤ 0 →
      (parseConfig config).maxAge = 86400 * 30) ∧
    (0 < (parseConfig config).maxAge) ∧
    ((NewDynamoStore config codec codecs).Options.maxAge = (parseConfig config).maxAge) := by
  refine ⟨?_, ?_, ?_, ?_, rfl⟩
  · intro n h hn
    simp only [parseConfig]
    rw [h]
    simp [hn]
  · intro n h hn
    simp only [parseConfig]
    rw [h]
    simp [hn]
  · intro n h hn
    simp only [parseConfig]
    rw [h]
    simp [hn, DefaultMaxAge]
  · simp only [parseConfig, DefaultMaxAge]
    split
    · split <;> omega
    · omega

/-- Witness for C9: a config with `read_capacity = -1`, `write_capacity = 0`
and `max_age = -5` parses to the defaults 5, 5 and 30 days. -/
theorem parseConfig_nonpositive_defaults_witness :
    nonPosConfig.get "read_capacity" = some (.int64 (-1)) ∧
    nonPosConfig.get "write_capacity" = some (.int64 0) ∧
    nonPosConfig.get "max_age" = some (.int64 (-5)) ∧
    (parseConfig nonPosConfig).readCapacity = 5 ∧
    (parseConfig nonPosConfig).writeCapacity = 5 ∧
    (parseConfig nonPosConfig).maxAge = 86400 * 30 ∧
    0 < (parseConfig nonPosConfig).maxAge :=
  ⟨rfl, rfl, rfl,
   (parseConfig_nonpositive_defaults nonPosConfig testCodec []).1 (-1) rfl (by decide),
   (parseConfig_nonpositive_defaults nonPosConfig testCodec []).2.1 0 rfl (by decide),
   (parseConfig_nonpositive_defaults nonPosConfig testCodec []).2.2.1 (-5) rfl (by decide),
   (parseConfig_nonpositive_defaults nonPosConfig testCodec []).2.2.2.1⟩

/-- C10: a record written while the store's TTL flag is disabled carries the
`ttl` attribute with value `0` (the field is present, not omitted), and
`load` treats every record whose `ttl` is not strictly positive as
unexpired: it goes straight to the payload decode, at every current time. -/
theorem ttl_disabled_never_expires (s : DynamoStore) (db : DB) (now now2 : Int)
    (sess : GSession) (d : String) (rec : Session) :
    (s.ttlEnabled = false → s.codec.encodeValues sess.name sess.Values = .ok d →
      s.save db now sess = db.putItem ⟨sess.ID, d, now, 0⟩) ∧
    (db.getItem sess.ID = .ok (some rec) → rec.TTL ≤ 0 →
      s.load db now2 sess = s.codec.decodeValues sess.name rec.Data) := by
  constructor
  · intro hT hE
    unfold DynamoStore.save
    rw [hE]
    simp [hT]
  · intro hGet hTTL
    unfold DynamoStore.load
    rw [hGet]
    have : ¬ (rec.TTL > 0 ∧ rec.TTL < now2) := by rintro ⟨h, -⟩; omega
    simp [this]

/-- Witness for C10: with TTL disabled the alice record is written with
`ttl = 0`, and loading a `ttl = 0` record long after it was written still
succeeds. -/
theorem ttl_disabled_never_expires_witness :
    testStoreNoTTL.ttlEnabled = false ∧
    testCodec.encodeValues "mysession" aliceValues = .ok "DATA" ∧
    testStoreNoTTL.save emptyDB 7 aliceSession = emptyDB.putItem ⟨"sid", "DATA", 7, 0⟩ ∧
    zeroDB.getItem "sid" = .ok (some zeroRec) ∧ zeroRec.TTL ≤ 0 ∧
    testStoreNoTTL.load zeroDB 999999 aliceSession = .ok aliceValues :=
  ⟨rfl, rfl,
   (ttl_disabled_never_expires testStoreNoTTL emptyDB 7 0 aliceSession "DATA" zeroRec).1
     rfl rfl,
   rfl, by decide,
   ((ttl_disabled_never_expires testStoreNoTTL zeroDB 7 999999 aliceSession "DATA" zeroRec).2
     rfl (by decide)).trans rfl⟩

/-- C2 counterexample: a `read_capacity` of the wrong dynamic type (`"abc"`,
a string) does not fail construction in the current `NewDynamoStore`: the
option-parsing phase of `dynamostore.go` is total and falls back to the
default capacity 5. -/
theorem NewDynamoStore_mistyped_capacity_counterexample :
    mistypedConfig.get "read_capacity" = some (.str "abc") ∧
    parseConfig mistypedConfig =
      ⟨"session-backend", 5, 5, 86400 * 30, "us-east-1", true, ""⟩ := by
  decide

/-- C2 amended: in the current `NewDynamoStore` a capacity value of the
wrong dynamic type silently falls back to the default; in the earlier
string-typed `NewDynamoStore` the option phase succeeds exactly when both
capacity strings parse as numbers, and an unparseable `read_capacity` is
reported as a construction error. -/
theorem construction_option_parsing (config : Config) (cs : ConfigStr) :
    (∀ v, config.get "read_capacity" = some v → (∀ n : Int, v ≠ .int64 n) →
      (parseConfig config).readCapacity = 5) ∧
    (∀ v, config.get "write_capacity" = some v → (∀ n : Int, v ≠ .int64 n) →
      (parseConfig config).writeCapacity = 5) ∧
    ((∃ p, parseConfigStr cs = .ok p) ↔
      ((∃ a, atoi (if cs.get "read_capacity" = "" then "0" else cs.get "read_capacity") = .ok a) ∧
       (∃ b, atoi (if cs.get "write_capacity" = "" then "0" else cs.get "write_capacity") = .ok b))) ∧
    (∀ rc e, cs.get "read_capacity" = rc → rc ≠ "" → atoi rc = .error e →
      parseConfigStr cs = .error ("invalid read capacity: " ++ rc)) := by
  refine ⟨?_, ?_, ?_, ?_⟩
  · intro v hv hne
    simp only [parseConfig]
    rw [hv]
    cases v with
    | int64 n => exact absurd rfl (hne n)
    | str a => rfl
    | bool b => rfl
    | otherType => rfl
  · intro v hv hne
    simp only [parseConfig]
    rw [hv]
    cases v with
    | int64 n => exact absurd rfl (hne n)
    | str a => rfl
    | bool b => rfl
    | otherType => rfl
  · unfold parseConfigStr
    dsimp only
    cases hr : atoi (if cs.get "read_capacity" = "" then "0" else cs.get "read_capacity") with
    | error e => simp [hr]
    | ok a =>
      cases hw : atoi (if cs.get "write_capacity" = "" then "0" else cs.get "write_capacity") with
      | error e => simp [hr, hw]
      | ok b => simp [hr, hw]
  · intro rc e hrc hne hatoi
    unfold parseConfigStr
    rw [hrc]
    simp only [hne, if_neg, if_false]
    rw [hatoi]

/-- Witness for C2's amended theorem: a mistyped capacity falls back in the
current parser, a parseable string capacity succeeds in the earlier parser,
and the unparseable `"abc"` is a construction error there. -/
theorem construction_option_parsing_witness :
    (mistypedConfig.get "read_capacity" = some (.str "abc") ∧
      (parseConfig mistypedConfig).readCapacity = 5) ∧
    (∃ p, parseConfigStr cs7 = .ok p) ∧
    (csAbc.get "read_capacity" = "abc" ∧
      parseConfigStr csAbc = .error "invalid read capacity: abc") :=
  ⟨⟨rfl,
    (construction_option_parsing mistypedConfig cs7).1 _ rfl
      (fun n h => ConfigVal.noConfusion h)⟩,
   (construction_option_parsing mistypedConfig cs7).2.2.1.mpr ⟨⟨7, rfl⟩, ⟨0, rfl⟩⟩,
   ⟨rfl,
    (construction_option_parsing mistypedConfig csAbc).2.2.2 "abc" "invalid syntax"
      rfl (by decide) rfl⟩⟩

/-- C1: round-trip. Saving a session with `MaxAge > 0` succeeds, issues the
cookie holding the encoded session id, and a subsequent `New` on a request
carrying that cookie (against the updated table, at any time no later than
the record's expiry) yields `IsNew = false` and the saved values, with no
error. The codec hypotheses are the `securecookie` contract at the values
involved: encoding succeeds and decoding inverts it. -/
theorem save_then_load_roundtrip (s : DynamoStore) (db : DB) (now1 now2 : Int)
    (key : List Nat) (w : Response) (sess : GSession) (d e id2 : String)
    (hMax : 0 < sess.Options.maxAge)
    (hPut : db.putFails = false) (hGet : db.getFails = false)
    (hid : id2 = if sess.ID = "" then generateID key else sess.ID)
    (hEncV : s.codec.encodeValues sess.name sess.Values = .ok d)
    (hDecV : s.codec.decodeValues sess.name d = .ok sess.Values)
    (hEncI : s.codec.encodeID sess.name id2 = .ok e)
    (hDecI : s.codec.decodeID sess.name e = .ok id2)
    (hTime : s.ttlEnabled = true → now2 ≤ now1 + sess.Options.maxAge) :
    (s.Save db now1 key w sess).err = none ∧
    (s.Save db now1 key w sess).w = w.setCookie ⟨sess.name, e, sess.Options⟩ ∧
    (s.New (s.Save db now1 key w sess).db now2 ⟨[(sess.name, e)]⟩ sess.name).2 = none ∧
    (s.New (s.Save db now1 key w sess).db now2 ⟨[(sess.name, e)]⟩ sess.name).1.IsNew = false ∧
    (s.New (s.Save db now1 key w sess).db now2 ⟨[(sess.name, e)]⟩ sess.name).1.Values
      = sess.Values := by
  have hA : ¬ sess.Options.maxAge ≤ 0 := by omega
  have hsess' : (if sess.ID = "" then { sess with ID := generateID key } else sess) =
      { sess with ID := id2 } := by
    by_cases h : sess.ID = ""
    · rw [if_pos h, hid, if_pos h]
    · rw [if_neg h, hid, if_neg h]
  have hSave : s.Save db now1 key w sess =
      ⟨none,
       { db with items :=
          (id2, ⟨id2, d, now1,
            if s.ttlEnabled ∧ sess.Options.maxAge > 0
              then now1 + sess.Options.maxAge else 0⟩) ::
          db.items.filter (fun p => ¬ p.1 = id2) },
       w.setCookie ⟨sess.name, e, sess.Options⟩,
       { sess with ID := id2 }⟩ := by
    unfold DynamoStore.Save
    rw [if_neg hA, hsess']
    unfold DynamoStore.save
    dsimp only
    rw [hEncV]
    dsimp only
    unfold DB.putItem
    rw [hPut]
    simp only [Bool.false_eq_true, if_false]
    rw [hEncI]
  have hcook : Request.cookie ⟨[(sess.name, e)]⟩ sess.name = some e := by
    simp [Request.cookie]
  have hGet' : DB.getItem
      { db with items :=
          (id2, ⟨id2, d, now1,
            if s.ttlEnabled ∧ sess.Options.maxAge > 0
              then now1 + sess.Options.maxAge else 0⟩) ::
          db.items.filter (fun p => ¬ p.1 = id2) } id2 =
      .ok (some ⟨id2, d, now1,
            if s.ttlEnabled ∧ sess.Options.maxAge > 0
              then now1 + sess.Options.maxAge else 0⟩) := by
    simp [DB.getItem, hGet]
  have hTTLcheck : ¬ ((if s.ttlEnabled ∧ sess.Options.maxAge > 0
        then now1 + sess.Options.maxAge else 0) > 0 ∧
      (if s.ttlEnabled ∧ sess.Options.maxAge > 0
        then now1 + sess.Options.maxAge else 0) < now2) := by
    by_cases hT : s.ttlEnabled = true ∧ sess.Options.maxAge > 0
    · rw [if_pos hT]
      have := hTime hT.1
      rintro ⟨-, h2⟩
      omega
    · rw [if_neg hT]
      rintro ⟨h1, -⟩
      omega
  have hNew : s.New
      { db with items :=
          (id2, ⟨id2, d, now1,
            if s.ttlEnabled ∧ sess.Options.maxAge > 0
              then now1 + sess.Options.maxAge else 0⟩) ::
          db.items.filter (fun p => ¬ p.1 = id2) }
      now2 ⟨[(sess.name, e)]⟩ sess.name =
      ({ ID := id2, Values := sess.Values, Options := s.Options, IsNew := false,
         name := sess.name }, none) := by
    unfold DynamoStore.New
    rw [hcook]
    dsimp only
    rw [hDecI]
    dsimp only
    unfold DynamoStore.load
    rw [hGet']
    dsimp only [Option.getD]
    rw [if_neg hTTLcheck, hDecV]
  exact ⟨by rw [hSave], by rw [hSave],
    by rw [hSave]; dsimp only; rw [hNew],
    by rw [hSave]; dsimp only; rw [hNew],
    by rw [hSave]; dsimp only; rw [hNew]⟩

/-- Witness for C1: the alice session (id `sid`, values
`{"name": "alice", "id": 43}`, max age 30 days) saved at time 10 and loaded
at time 20 through the issued cookie `Isid` comes back with the same values
and `IsNew = false`. -/
theorem save_then_load_roundtrip_witness :
    0 < aliceSession.Options.maxAge ∧
    testCodec.decodeID "mysession" "Isid" = .ok "sid" ∧
    (testStore.Save emptyDB 10 [] emptyResponse aliceSession).err = none ∧
    (testStore.Save emptyDB 10 [] emptyResponse aliceSession).w =
      emptyResponse.setCookie ⟨"mysession", "Isid", aliceSession.Options⟩ ∧
    (testStore.New (testStore.Save emptyDB 10 [] emptyResponse aliceSession).db 20
      ⟨[("mysession", "Isid")]⟩ "mysession").2 = none ∧
    (testStore.New (testStore.Save emptyDB 10 [] emptyResponse aliceSession).db 20
      ⟨[("mysession", "Isid")]⟩ "mysession").1.IsNew = false ∧
    (testStore.New (testStore.Save emptyDB 10 [] emptyResponse aliceSession).db 20
      ⟨[("mysession", "Isid")]⟩ "mysession").1.Values = aliceValues := by
  have h := save_then_load_roundtrip testStore emptyDB 10 20 [] emptyResponse
    aliceSession "DATA" "Isid" "sid" (by decide) rfl rfl (by decide) rfl rfl rfl rfl
    (fun _ => by decide)
  exact ⟨by decide, rfl, h.1, h.2.1, h.2.2.1, h.2.2.2.1, h.2.2.2.2⟩

end Dynamostore
